import Mathlib

/-!
# OEE & Productivity Improvement — verification of the analysis engine

A shallow embedding of the numeric core of the repository:

* `generate_production_data` (src/oee_analysis.py, lines 53-141): the body of
  the per-record generation loop, parametrised over the random draws the
  original obtains from `np.random` / `random.choice`.
* `calculate_oee_metrics` (src/oee_analysis.py, lines 143-176): the OEE
  derivation, including pandas' in-place column assignment and the
  `clip(upper=100)` step.
* `downtime_pareto_analysis` (src/detailed_analysis.py, lines 24-58):
  filter, group-by-reason, sort descending, cumulative percentage.
* `speed_loss_analysis` (src/detailed_analysis.py, lines 60-92): the
  in-place `Speed_Loss_Percent` column assignment.
* `simulate_improvement_impact` (src/improvement_recommendations.py,
  lines 140-235): the improvement scenario computed on a `.copy()` of the
  baseline batch.

Numbers are modelled as exact rationals (`ℚ`); Python's `round(x, d)` and
pandas' `.round(d)` are modelled as exact decimal round-half-to-even.
Python's `int(x)` truncation equals `⌊x⌋` for the non-negative quantities it
is applied to here.  A pandas float cell holding a non-finite value (NaN from
`0/0`) is modelled as `none : Option ℚ`, as is a column that has not been
assigned yet; `some q` is a finite numeric cell.
-/

/-- Decimal rounding primitive: round a rational to the nearest integer,
ties to the even neighbour.  Models Python's `round` (and NumPy/pandas
`.round`) on the exact value. -/
def roundHalfEven (x : ℚ) : ℤ :=
  if x - ⌊x⌋ < 1/2 then ⌊x⌋
  else if 1/2 < x - ⌊x⌋ then ⌊x⌋ + 1
  else if ⌊x⌋ % 2 = 0 then ⌊x⌋ else ⌊x⌋ + 1

/-- `roundTo d x` models Python's `round(x, d)`: round to `d` decimal
places, ties to even. -/
def roundTo (d : ℕ) (x : ℚ) : ℚ := (roundHalfEven (x * 10 ^ d) : ℚ) / 10 ^ d

/-! ## Data model

One row of the pandas DataFrame built by `generate_production_data`
(src/oee_analysis.py, lines 119-131) and extended in place by
`calculate_oee_metrics` / `speed_loss_analysis`.  The `Date`, `Shift` and
`Machine_Name` label columns play no role in any property verified here and
are omitted; all numeric cells are exact rationals.  Metric columns are
`Option ℚ`: `none` is a column that has not been assigned yet, or a
non-finite float cell (the NaN produced by `0/0`); `some q` is a finite
numeric cell. -/

structure Row where
  planned : ℚ             -- Planned_Production_Time
  downtime : ℚ            -- Downtime_Minutes (stored rounded to 1 decimal)
  reason : String         -- Downtime_Reason
  idealCycle : ℚ          -- Ideal_Cycle_Time
  actualCycle : ℚ         -- Actual_Cycle_Time (stored rounded to 2 decimals)
  totalUnits : ℚ          -- Total_Units_Produced
  defectiveUnits : ℚ      -- Defective_Units
  goodUnits : ℚ           -- Good_Units
  availability : Option ℚ := none
  performance : Option ℚ := none
  quality : Option ℚ := none
  oee : Option ℚ := none
  speedLossPct : Option ℚ := none   -- Speed_Loss_Percent
  deriving DecidableEq, Repr

/-- Float division as it appears in the source's pandas expressions.  A zero
denominator produces a non-finite IEEE value; in every expression modelled in
this file the numerator is also zero whenever the denominator is (so the
result is NaN), modelled as `none`. -/
def fdiv (a b : ℚ) : Option ℚ := if b = 0 then none else some (a / b)

/-! ## Record Simulator configuration (src/oee_analysis.py, lines 29-47) -/

inductive Shift where
  | Morning | Afternoon | Night
  deriving DecidableEq, Repr

inductive Machine where
  | Mixer | Filler | Packer | Conveyor
  deriving DecidableEq, Repr

/-- `planned_production_minutes` (line 43): Morning 480, Afternoon 480,
Night 420. -/
def planned_production_minutes : Shift → ℚ
  | .Morning => 480
  | .Afternoon => 480
  | .Night => 420

/-- Ideal cycle time per machine (`cycle_times[...]['ideal']`, line 36). -/
def ideal_cycle_time : Machine → ℚ
  | .Mixer => 45
  | .Filler => 5/2
  | .Packer => 3
  | .Conveyor => 9/5

/-- Lower end of `cycle_times[...]['actual_range']` (line 36). -/
def actual_range_lo : Machine → ℚ
  | .Mixer => 48
  | .Filler => 14/5
  | .Packer => 16/5
  | .Conveyor => 19/10

/-- Upper end of `cycle_times[...]['actual_range']` (line 36). -/
def actual_range_hi : Machine → ℚ
  | .Mixer => 65
  | .Filler => 21/5
  | .Packer => 24/5
  | .Conveyor => 5/2

/-- Lower end of the machine-specific defect-rate draw
(src/oee_analysis.py, lines 110-115). -/
def defect_rate_lo : Machine → ℚ
  | .Filler => 4/5
  | .Packer => 1/2
  | _ => 1/5

/-- Upper end of the machine-specific defect-rate draw (lines 110-115). -/
def defect_rate_hi : Machine → ℚ
  | .Filler => 7/2
  | .Packer => 2
  | _ => 1

/-- The random draws one loop iteration of `generate_production_data`
consumes (besides the date/shift/machine choices).  `downtimeDraw` is the
raw output of `np.random.normal(downtime_mean, 15)` and may be any real;
`cycleDraw` is `np.random.uniform` over the machine's actual-cycle range;
`defectDraw` is `np.random.uniform` over the machine's defect-rate range;
`reasonPick` selects between the two `random.choice` candidates inside a
downtime bracket. -/
structure Draws where
  downtimeDraw : ℚ
  cycleDraw : ℚ
  defectDraw : ℚ
  reasonPick : Bool
  deriving DecidableEq, Repr

/-- Range constraints that `np.random.uniform(lo, hi)` guarantees for the
cycle-time and defect-rate draws.  (The normal downtime draw is unbounded
and so carries no constraint.) -/
def DrawsValid (m : Machine) (d : Draws) : Prop :=
  actual_range_lo m ≤ d.cycleDraw ∧ d.cycleDraw ≤ actual_range_hi m ∧
  defect_rate_lo m ≤ d.defectDraw ∧ d.defectDraw ≤ defect_rate_hi m

instance (m : Machine) (d : Draws) : Decidable (DrawsValid m d) := by
  unfold DrawsValid
  infer_instance

/-- Raw downtime after the cap logic of lines 87-88:
`max(0, normal_draw)` then `min(·, planned_time * 0.5)`. -/
def rawDowntime (s : Shift) (d : Draws) : ℚ :=
  min (max 0 d.downtimeDraw) (planned_production_minutes s * (1/2))

/-- Downtime-reason assignment, lines 91-99.  The bracket is chosen from the
**raw** (un-rounded) downtime; `pick` stands for the uniform
`random.choice` between the two candidates of a bracket. -/
def assignReason (raw : ℚ) (pick : Bool) : String :=
  if raw > 0 then
    if raw > 60 then (if pick then "Breakdown" else "Changeover")
    else if raw > 30 then (if pick then "Cleaning" else "Breakdown")
    else (if pick then "Minor Stoppage" else "Power Failure")
  else "None"

/-- `total_units = int(available_time * 60 / actual_cycle)` (line 107),
computed from the **raw** (un-rounded) downtime and cycle draw.  `int(·)`
truncation is `⌊·⌋` (the argument is non-negative for every reachable
input). -/
def simTotalUnits (s : Shift) (d : Draws) : ℤ :=
  ⌊(planned_production_minutes s - rawDowntime s d) * 60 / d.cycleDraw⌋

/-- `defective_units = int(total_units * defect_rate / 100)` (line 117). -/
def simDefectiveUnits (s : Shift) (d : Draws) : ℤ :=
  ⌊(simTotalUnits s d : ℚ) * d.defectDraw / 100⌋

/-- One loop iteration of `generate_production_data`
(src/oee_analysis.py, lines 74-131), as a function of the shift, machine and
random draws.  Note that `Total_Units_Produced` is computed from the **raw**
downtime (line 106) while the stored `Downtime_Minutes` is rounded to one
decimal (line 124), and the stored `Actual_Cycle_Time` is rounded to two
decimals (line 127) while the units were computed from the raw draw. -/
def generate_production_record (s : Shift) (m : Machine) (d : Draws) : Row :=
  { planned := planned_production_minutes s
    downtime := roundTo 1 (rawDowntime s d)
    reason := assignReason (rawDowntime s d) d.reasonPick
    idealCycle := ideal_cycle_time m
    actualCycle := roundTo 2 d.cycleDraw
    totalUnits := (simTotalUnits s d : ℚ)
    defectiveUnits := (simDefectiveUnits s d : ℚ)
    goodUnits := ((simTotalUnits s d - simDefectiveUnits s d : ℤ) : ℚ) }

/-! ## OEE Calculator (src/oee_analysis.py, lines 143-176) -/

/-- Raw availability, line 150:
`(Planned - Downtime) / Planned * 100`. -/
def rawAvailability (r : Row) : Option ℚ :=
  (fdiv (r.planned - r.downtime) r.planned).map (· * 100)

/-- Raw performance, lines 154-156:
`Ideal_Cycle_Time * Total_Units_Produced / (operating_time * 60) * 100`
with `operating_time = Planned - Downtime`. -/
def rawPerformance (r : Row) : Option ℚ :=
  (fdiv (r.idealCycle * r.totalUnits) ((r.planned - r.downtime) * 60)).map (· * 100)

/-- Raw quality, line 159: `Good_Units / Total_Units_Produced * 100`. -/
def rawQuality (r : Row) : Option ℚ :=
  (fdiv r.goodUnits r.totalUnits).map (· * 100)

/-- Raw OEE, line 162: `Availability * Performance * Quality / 10000`,
computed from the raw (un-clipped) columns; NaN in any factor propagates. -/
def rawOEE (r : Row) : Option ℚ :=
  match rawAvailability r, rawPerformance r, rawQuality r with
  | some a, some p, some q => some (a * p * q / 10000)
  | _, _, _ => none

/-- `clip(upper=100)` on one cell (line 166); pandas leaves NaN untouched. -/
def clipUpper100 (x : Option ℚ) : Option ℚ := x.map (fun v => min v 100)

/-- The four column assignments plus the clip, applied to one row
(lines 150-166). -/
def calcRow (r : Row) : Row :=
  { r with
    availability := clipUpper100 (rawAvailability r)
    performance := clipUpper100 (rawPerformance r)
    quality := clipUpper100 (rawQuality r)
    oee := clipUpper100 (rawOEE r) }

/-- The column-level effect of `calculate_oee_metrics` on the frame it is
given (lines 150-166 act row-wise). -/
def calcOeeFrame (rows : List Row) : List Row := rows.map calcRow

/-- The analyzer's two table-holding fields (`self.raw_data`,
`self.oee_results`, src/oee_analysis.py lines 50-51).  In `main()` the frame
passed to `calculate_oee_metrics` is the very object stored in `raw_data`
(line 134 stores the generated frame, line 246 passes it back in). -/
structure AnalyzerState where
  raw_data : List Row
  oee_results : List Row
  deriving DecidableEq, Repr

/-- State effect and return value of
`OEEAnalyzer.calculate_oee_metrics(self, df)` when called on the simulator's
table as in `main()`: pandas column assignment (lines 150-166) writes the
four metric columns into the argument frame **in place**, so the object held
in `raw_data` itself acquires the metric columns; line 168 stores a copy in
`oee_results`; line 176 returns the (mutated) argument object. -/
def calculate_oee_metrics (st : AnalyzerState) : AnalyzerState × List Row :=
  let df := calcOeeFrame st.raw_data
  ({ raw_data := df, oee_results := df }, df)

/-! ## Loss Analyzer (src/detailed_analysis.py)

`DetailedOEEAnalysis.__init__` (lines 19-22) stores **aliases**:
`self.data = analyzer.oee_results` and `self.raw_data = analyzer.raw_data`
— no copy is taken. -/

/-- `groupby('Downtime_Reason').agg({'Downtime_Minutes': 'sum'})` on one
key/value pair: add `v` to the entry of key `k`, or append a new entry. -/
def addToGroup (acc : List (String × ℚ)) (k : String) (v : ℚ) :
    List (String × ℚ) :=
  match acc with
  | [] => [(k, v)]
  | (k', v') :: rest =>
      if k = k' then (k', v' + v) :: rest else (k', v') :: addToGroup rest k v

/-- Sum of `Downtime_Minutes` per `Downtime_Reason`
(src/detailed_analysis.py, lines 36-39, the `sum` aggregate). -/
def groupSumDowntime (rows : List Row) : List (String × ℚ) :=
  rows.foldl (fun acc r => addToGroup acc r.reason r.downtime) []

/-- Descending order on the `Total_Downtime_Min` column, used by
`sort_values('Total_Downtime_Min', ascending=False)` (line 42). -/
def byTotalDesc (a b : String × ℚ) : Prop := b.2 ≤ a.2

instance : DecidableRel byTotalDesc := fun a b =>
  inferInstanceAs (Decidable (b.2 ≤ a.2))

instance : IsTotal (String × ℚ) byTotalDesc :=
  ⟨fun a b => le_total b.2 a.2⟩

instance : IsTrans (String × ℚ) byTotalDesc :=
  ⟨fun _ _ _ h1 h2 => le_trans h2 h1⟩

/-- The `Total_Downtime_Min` column of `downtime_summary`
(src/detailed_analysis.py, lines 33-42): filter `Downtime_Minutes > 0`,
group by reason, round the sums to 2 decimals (the `.round(2)` on line 39),
sort descending by total. -/
def downtime_pareto_totals (rows : List Row) : List (String × ℚ) :=
  List.insertionSort byTotalDesc
    ((groupSumDowntime (rows.filter (fun r => decide (0 < r.downtime)))).map
      (fun p => (p.1, roundTo 2 p.2)))

/-- Running (cumulative) sums of a list, as `cumsum()` produces. -/
def runningTotals : List ℚ → List ℚ
  | [] => []
  | x :: xs => x :: (runningTotals xs).map (fun s => x + s)

/-- The `Cumulative_Pct` column (src/detailed_analysis.py, lines 45-46):
`(cumsum / total * 100).round(1)` over the sorted totals. -/
def cumulative_pct (rows : List Row) : List ℚ :=
  let totals := (downtime_pareto_totals rows).map Prod.snd
  (runningTotals totals).map (fun s => roundTo 1 (s / totals.sum * 100))

/-- The `Speed_Loss_Percent` cell written by `speed_loss_analysis`
(src/detailed_analysis.py, lines 69-70):
`((Actual - Ideal) / Ideal * 100).round(2)`. -/
def speedLossRow (r : Row) : Row :=
  { r with speedLossPct :=
      (Option.map (fun v => roundTo 2 (v * 100))
        (fdiv (r.actualCycle - r.idealCycle) r.idealCycle)) }

/-- State effect of `DetailedOEEAnalysis.speed_loss_analysis` (lines 69-70):
`self.data` is an alias of the analyzer's `oee_results` table, and the
column assignment writes `Speed_Loss_Percent` into it **in place**. -/
def speed_loss_analysis (st : AnalyzerState) : AnalyzerState :=
  { st with oee_results := st.oee_results.map speedLossRow }

/-! ## Improvement impact simulation (src/improvement_recommendations.py) -/

/-- The sequence of column assignments `simulate_improvement_impact`
performs on the improved copy, per row (lines 153-173, in statement order):
scale downtime by 0.65 and recompute availability; scale actual cycle time
by 0.85 and recompute performance; halve defects, recompute good units and
quality; recompute OEE from the new (raw) columns; clip the four metric
columns at 100. -/
def improveRow (r0 : Row) : Row :=
  let r1 := { r0 with downtime := r0.downtime * (65/100) }
  let r2 := { r1 with availability :=
      (Option.map (· * 100) (fdiv (r1.planned - r1.downtime) r1.planned)) }
  let r3 := { r2 with actualCycle := r2.actualCycle * (85/100) }
  let r4 := { r3 with performance :=
      (Option.map (· * 100)
        (fdiv (r3.idealCycle * r3.totalUnits) ((r3.planned - r3.downtime) * 60))) }
  let r5 := { r4 with defectiveUnits := r4.defectiveUnits * (1/2) }
  let r6 := { r5 with goodUnits := r5.totalUnits - r5.defectiveUnits }
  let r7 := { r6 with quality := (fdiv r6.goodUnits r6.totalUnits).map (· * 100) }
  let r8 := { r7 with oee :=
      match r7.availability, r7.performance, r7.quality with
      | some a, some p, some q => some (a * p * q / 10000)
      | _, _, _ => none }
  { r8 with
    availability := clipUpper100 r8.availability
    performance := clipUpper100 r8.performance
    quality := clipUpper100 r8.quality
    oee := clipUpper100 r8.oee }

/-- The two tables `OEEImprovementPlan.simulate_improvement_impact` works
with: `self.current_data` (the baseline batch, a copy of the analyzer's
`oee_results`, line 24) and the local `improved_data`. -/
structure ImpactState where
  current : List Row
  improved : List Row
  deriving DecidableEq, Repr

/-- `simulate_improvement_impact` (src/improvement_recommendations.py,
lines 140-173): line 149 takes a **copy** of the baseline
(`improved_data = self.current_data.copy()`), so the subsequent column
assignments (modelled by `improveRow`) target only the copy. -/
def simulate_improvement_impact (current : List Row) : ImpactState :=
  let improved0 := current
  let improved := improved0.map improveRow
  { current := current, improved := improved }

lemma floor_le_roundHalfEven (y : ℚ) : ⌊y⌋ ≤ roundHalfEven y := by
  unfold roundHalfEven
  split_ifs <;> omega

lemma roundHalfEven_le_floor_add_one (y : ℚ) : roundHalfEven y ≤ ⌊y⌋ + 1 := by
  unfold roundHalfEven
  split_ifs <;> omega

lemma le_roundHalfEven {c : ℤ} {y : ℚ} (h : (c : ℚ) ≤ y) : c ≤ roundHalfEven y := by
  have h1 : c ≤ ⌊y⌋ := by
    have := Int.floor_le_floor h
    simpa using this
  exact le_trans h1 (floor_le_roundHalfEven y)

lemma roundHalfEven_le {c : ℤ} {y : ℚ} (h : y ≤ (c : ℚ)) : roundHalfEven y ≤ c := by
  unfold roundHalfEven
  have hfl : ⌊y⌋ ≤ c := by
    have := Int.floor_le_floor h
    simpa using this
  have hy : (⌊y⌋ : ℚ) ≤ y := Int.floor_le y
  split_ifs with h1 h2 h3
  · exact hfl
  · -- here 1/2 < y - ⌊y⌋, so (⌊y⌋ : ℚ) < y - 1/2 ≤ c - 1/2 < c
    have hq : (⌊y⌋ : ℚ) < (c : ℚ) := by linarith
    have : ⌊y⌋ < c := by exact_mod_cast hq
    omega
  · exact hfl
  · -- tie case with odd floor: y - ⌊y⌋ = 1/2 exactly
    push_neg at h1
    have hq : (⌊y⌋ : ℚ) < (c : ℚ) := by linarith
    have : ⌊y⌋ < c := by exact_mod_cast hq
    omega

lemma roundHalfEven_intCast (n : ℤ) : roundHalfEven (n : ℚ) = n :=
  le_antisymm (roundHalfEven_le (le_refl _)) (le_roundHalfEven (le_refl _))

lemma roundHalfEven_mono {x y : ℚ} (h : x ≤ y) :
    roundHalfEven x ≤ roundHalfEven y := by
  have hfl : ⌊x⌋ ≤ ⌊y⌋ := Int.floor_le_floor h
  rcases lt_or_eq_of_le hfl with hlt | heq
  · calc roundHalfEven x ≤ ⌊x⌋ + 1 := roundHalfEven_le_floor_add_one x
      _ ≤ ⌊y⌋ := by omega
      _ ≤ roundHalfEven y := floor_le_roundHalfEven y
  · unfold roundHalfEven
    rw [← heq]
    have hfxy : x - ⌊x⌋ ≤ y - ⌊x⌋ := by linarith
    split_ifs <;> first | omega | linarith

lemma one_le_roundHalfEven {y : ℚ} (h : 1/2 < y) : 1 ≤ roundHalfEven y := by
  by_cases hfl : 1 ≤ ⌊y⌋
  · exact le_trans hfl (floor_le_roundHalfEven y)
  · have hfl0 : ⌊y⌋ = 0 := by
      have h0 : 0 ≤ ⌊y⌋ := Int.floor_nonneg.mpr (by linarith)
      omega
    unfold roundHalfEven
    rw [hfl0]
    have hf : 1/2 < y - ((0 : ℤ) : ℚ) := by push_cast; linarith
    split_ifs <;> first | omega | linarith

/-- `roundTo` bounds: rounding keeps a value inside an interval whose
endpoints are exact multiples of `10 ^ (-d)`. -/
lemma roundTo_le {d : ℕ} {c : ℤ} {x : ℚ} (h : x ≤ (c : ℚ) / 10 ^ d) :
    roundTo d x ≤ (c : ℚ) / 10 ^ d := by
  unfold roundTo
  have hp : (0 : ℚ) < 10 ^ d := by positivity
  have h1 : x * 10 ^ d ≤ (c : ℚ) := (le_div_iff₀ hp).mp h
  have h2 : roundHalfEven (x * 10 ^ d) ≤ c := roundHalfEven_le h1
  exact (div_le_div_iff_of_pos_right hp).mpr (by exact_mod_cast h2)

lemma le_roundTo {d : ℕ} {c : ℤ} {x : ℚ} (h : (c : ℚ) / 10 ^ d ≤ x) :
    (c : ℚ) / 10 ^ d ≤ roundTo d x := by
  unfold roundTo
  have hp : (0 : ℚ) < 10 ^ d := by positivity
  have h1 : (c : ℚ) ≤ x * 10 ^ d := (div_le_iff₀ hp).mp h
  have h2 : c ≤ roundHalfEven (x * 10 ^ d) := le_roundHalfEven h1
  exact (div_le_div_iff_of_pos_right hp).mpr (by exact_mod_cast h2)

lemma roundTo_nonneg {d : ℕ} {x : ℚ} (h : 0 ≤ x) : 0 ≤ roundTo d x := by
  have := le_roundTo (d := d) (c := 0) (x := x) (by simpa using h)
  simpa using this

lemma roundTo_mono {d : ℕ} {x y : ℚ} (h : x ≤ y) : roundTo d x ≤ roundTo d y := by
  unfold roundTo
  have hp : (0 : ℚ) < 10 ^ d := by positivity
  have h1 : x * 10 ^ d ≤ y * 10 ^ d := mul_le_mul_of_nonneg_right h (le_of_lt hp)
  exact (div_le_div_iff_of_pos_right hp).mpr (by exact_mod_cast roundHalfEven_mono h1)

/-- Rounding fixes exact multiples of `10 ^ (-d)`. -/
lemma roundTo_of_eq_div {d : ℕ} {x : ℚ} {k : ℤ} (h : x = (k : ℚ) / 10 ^ d) :
    roundTo d x = x := by
  have hp : (0 : ℚ) < 10 ^ d := by positivity
  unfold roundTo
  rw [h]
  have hx : (k : ℚ) / 10 ^ d * 10 ^ d = (k : ℚ) := by field_simp
  rw [hx, roundHalfEven_intCast]

/-! ## Concrete records for the scenario claims -/

/-- Record A of the §8 scenario: `planned=480, downtime=0, ideal=2.5,
actual=2.5, units=11520, defects=0`. -/
def recordA : Row :=
  { planned := 480, downtime := 0, reason := "None", idealCycle := 5/2,
    actualCycle := 5/2, totalUnits := 11520, defectiveUnits := 0,
    goodUnits := 11520 }

/-- Record B of the §8 scenario: `planned=480, downtime=240, ideal=2.5,
actual=5.0, units=2880, defects=288`. -/
def recordB : Row :=
  { planned := 480, downtime := 240, reason := "Breakdown", idealCycle := 5/2,
    actualCycle := 5, totalUnits := 2880, defectiveUnits := 288,
    goodUnits := 2592 }

/-- C1: the two-record scenario batch evaluates exactly as §8 states. -/
theorem claim_C1_two_record_scenario :
    (calcOeeFrame [recordA, recordB]).map
        (fun r => (r.availability, r.performance, r.quality, r.oee)) =
      [(some 100, some 100, some 100, some 100),
       (some 50, some 50, some 90, some (45/2))] := by
  simp only [calcOeeFrame, calcRow, rawAvailability, rawPerformance,
    rawQuality, rawOEE, fdiv, clipUpper100, recordA, recordB, List.map]
  norm_num

/-! ## Simulator invariants -/

lemma planned_pos (s : Shift) : 0 < planned_production_minutes s := by
  cases s <;> norm_num [planned_production_minutes]

lemma rawDowntime_nonneg (s : Shift) (d : Draws) : 0 ≤ rawDowntime s d := by
  unfold rawDowntime
  have h1 : (0 : ℚ) ≤ max 0 d.downtimeDraw := le_max_left 0 _
  have h2 : (0 : ℚ) ≤ planned_production_minutes s * (1/2) := by
    have := planned_pos s
    linarith
  exact le_min h1 h2

lemma rawDowntime_le_half (s : Shift) (d : Draws) :
    rawDowntime s d ≤ planned_production_minutes s * (1/2) :=
  min_le_right _ _

/-- The stored (1-decimal-rounded) downtime keeps the half-planned-time cap,
because the cap (240 or 210 minutes) is an exact multiple of 0.1. -/
lemma stored_downtime_le_half (s : Shift) (d : Draws) :
    roundTo 1 (rawDowntime s d) ≤ planned_production_minutes s * (1/2) := by
  have hle := rawDowntime_le_half s d
  cases s
  case Morning =>
    have h : rawDowntime Shift.Morning d ≤ ((2400 : ℤ) : ℚ) / 10 ^ 1 :=
      calc rawDowntime Shift.Morning d
          ≤ planned_production_minutes Shift.Morning * (1/2) := hle
        _ = ((2400 : ℤ) : ℚ) / 10 ^ 1 := by norm_num [planned_production_minutes]
    calc roundTo 1 (rawDowntime Shift.Morning d)
        ≤ ((2400 : ℤ) : ℚ) / 10 ^ 1 := roundTo_le h
      _ = planned_production_minutes Shift.Morning * (1/2) := by
          norm_num [planned_production_minutes]
  case Afternoon =>
    have h : rawDowntime Shift.Afternoon d ≤ ((2400 : ℤ) : ℚ) / 10 ^ 1 :=
      calc rawDowntime Shift.Afternoon d
          ≤ planned_production_minutes Shift.Afternoon * (1/2) := hle
        _ = ((2400 : ℤ) : ℚ) / 10 ^ 1 := by norm_num [planned_production_minutes]
    calc roundTo 1 (rawDowntime Shift.Afternoon d)
        ≤ ((2400 : ℤ) : ℚ) / 10 ^ 1 := roundTo_le h
      _ = planned_production_minutes Shift.Afternoon * (1/2) := by
          norm_num [planned_production_minutes]
  case Night =>
    have h : rawDowntime Shift.Night d ≤ ((2100 : ℤ) : ℚ) / 10 ^ 1 :=
      calc rawDowntime Shift.Night d
          ≤ planned_production_minutes Shift.Night * (1/2) := hle
        _ = ((2100 : ℤ) : ℚ) / 10 ^ 1 := by norm_num [planned_production_minutes]
    calc roundTo 1 (rawDowntime Shift.Night d)
        ≤ ((2100 : ℤ) : ℚ) / 10 ^ 1 := roundTo_le h
      _ = planned_production_minutes Shift.Night * (1/2) := by
          norm_num [planned_production_minutes]

lemma stored_downtime_nonneg (s : Shift) (d : Draws) :
    0 ≤ roundTo 1 (rawDowntime s d) :=
  roundTo_nonneg (rawDowntime_nonneg s d)

/-- C7: every simulated record has `0 ≤ downtime_minutes ≤ 0.5 × planned`,
for the stored (rounded) downtime and every possible draw. -/
theorem claim_C7_downtime_bounds (s : Shift) (m : Machine) (d : Draws) :
    0 ≤ (generate_production_record s m d).downtime ∧
    (generate_production_record s m d).downtime ≤
      (1/2) * (generate_production_record s m d).planned := by
  refine ⟨stored_downtime_nonneg s d, ?_⟩
  have h := stored_downtime_le_half s d
  show roundTo 1 (rawDowntime s d) ≤ (1/2) * planned_production_minutes s
  linarith

/-- C10: on simulator output, operating time is at least half the planned
time (hence positive), and the Calculator's availability division is
well-defined with raw availability at least 50. -/
theorem claim_C10_availability_lower_bound (s : Shift) (m : Machine) (d : Draws) :
    (generate_production_record s m d).planned * (1/2) ≤
      (generate_production_record s m d).planned -
        (generate_production_record s m d).downtime ∧
    0 < (generate_production_record s m d).planned -
        (generate_production_record s m d).downtime ∧
    ∃ a, rawAvailability (generate_production_record s m d) = some a ∧ 50 ≤ a := by
  have hp : (generate_production_record s m d).planned = planned_production_minutes s := rfl
  have hdt : (generate_production_record s m d).downtime = roundTo 1 (rawDowntime s d) := rfl
  have hp0 : 0 < planned_production_minutes s := planned_pos s
  have h1 : (generate_production_record s m d).planned * (1/2) ≤
      (generate_production_record s m d).planned -
        (generate_production_record s m d).downtime := by
    rw [hp, hdt]
    have := stored_downtime_le_half s d
    linarith
  have h2 : 0 < (generate_production_record s m d).planned -
      (generate_production_record s m d).downtime := by
    have : 0 < (generate_production_record s m d).planned * (1/2) := by
      rw [hp]; linarith
    linarith
  refine ⟨h1, h2, ?_⟩
  have hpne : (generate_production_record s m d).planned ≠ 0 := by
    rw [hp]; exact ne_of_gt hp0
  refine ⟨((generate_production_record s m d).planned -
      (generate_production_record s m d).downtime) /
      (generate_production_record s m d).planned * 100, ?_, ?_⟩
  · simp [rawAvailability, fdiv, hpne]
  · -- (p - dt) / p ≥ 1/2 because p - dt ≥ p/2 and p > 0
    have hp0' : 0 < (generate_production_record s m d).planned := by rw [hp]; exact hp0
    rw [show (50 : ℚ) = (1/2) * 100 by norm_num]
    apply mul_le_mul_of_nonneg_right _ (by norm_num : (0:ℚ) ≤ 100)
    rw [le_div_iff₀ hp0']
    linarith

/-! ## Calculator edge cases and frame effects -/

/-- A record with `total_units_produced == 0` (and hence zero defective and
good units, as the simulator derives them), fed to the Calculator. -/
def recordZeroUnits : Row :=
  { planned := 480, downtime := 0, reason := "None", idealCycle := 5/2,
    actualCycle := 5/2, totalUnits := 0, defectiveUnits := 0, goodUnits := 0 }

/-- C3 (behaviour at the failing input): on a zero-units record the source's
`Quality = Good_Units / Total_Units_Produced` is `0/0`, a NaN that
propagates into `OEE`; no sentinel is substituted.  (`Performance` happens
to come out as `0` only because its numerator is zero.)  In particular the
quality cell is **not** the documented sentinel `some 0`, and the code keeps
no discard tally at all. -/
theorem claim_C3_zero_units_produces_nan :
    (calcRow recordZeroUnits).performance = some 0 ∧
    (calcRow recordZeroUnits).quality = none ∧
    (calcRow recordZeroUnits).oee = none ∧
    (calcRow recordZeroUnits).quality ≠ some 0 := by
  refine ⟨?_, ?_, ?_, ?_⟩ <;>
    simp [calcRow, rawQuality, rawPerformance, rawAvailability, rawOEE,
      fdiv, clipUpper100, recordZeroUnits]

/-- A record whose raw performance factor exceeds 100% (more units than the
ideal cycle time allows in the operating time). -/
def recordOverSpeed : Row :=
  { planned := 480, downtime := 240, reason := "Breakdown", idealCycle := 5/2,
    actualCycle := 5/2, totalUnits := 23040, defectiveUnits := 0,
    goodUnits := 23040 }

/-- C8: a record with a raw factor above 100 for which the clamped OEE is
strictly greater than the minimum of the clamped factors, because the source
computes OEE from the unclamped columns and clips it separately. -/
theorem claim_C8_clamped_oee_exceeds_min_factor :
    ∃ r : Row,
      (∃ p, rawPerformance r = some p ∧ 100 < p) ∧
      ∃ a p q o,
        (calcRow r).availability = some a ∧ (calcRow r).performance = some p ∧
        (calcRow r).quality = some q ∧ (calcRow r).oee = some o ∧
        min a (min p q) < o := by
  refine ⟨recordOverSpeed, ⟨400, ?_, by norm_num⟩, 50, 100, 100, 100,
    ?_, ?_, ?_, ?_, by norm_num⟩ <;>
    simp [calcRow, rawQuality, rawPerformance, rawAvailability, rawOEE,
      fdiv, clipUpper100, recordOverSpeed] <;>
    norm_num

/-- A plain simulator-style record with no metric columns assigned yet. -/
def rowPlain : Row :=
  { planned := 480, downtime := 30, reason := "Cleaning", idealCycle := 5/2,
    actualCycle := 3, totalUnits := 9000, defectiveUnits := 90,
    goodUnits := 8910 }

/-- C4 is false: `calculate_oee_metrics` writes the metric columns into the
simulator's table in place (the analyzer's `raw_data` object changes), and
`speed_loss_analysis` writes `Speed_Loss_Percent` into the calculator's
`oee_results` table in place. -/
theorem claim_C4_counterexample :
    (calculate_oee_metrics
        { raw_data := [rowPlain], oee_results := [] }).1.raw_data ≠
      [rowPlain] ∧
    (speed_loss_analysis
        { raw_data := [], oee_results := [rowPlain] }).oee_results ≠
      [rowPlain] := by
  constructor
  · intro h
    have h2 := congrArg (fun l => l.map Row.availability) h
    simp [calculate_oee_metrics, calcOeeFrame, calcRow, rawAvailability,
      fdiv, clipUpper100, rowPlain] at h2
  · intro h
    have h2 := congrArg (fun l => l.map Row.speedLossPct) h
    simp [speed_loss_analysis, speedLossRow, fdiv, rowPlain] at h2

/-- The simulator-written columns of a row (everything
`generate_production_data` stores, src/oee_analysis.py lines 119-131). -/
def baseCols (r : Row) : ℚ × ℚ × String × ℚ × ℚ × ℚ × ℚ × ℚ :=
  (r.planned, r.downtime, r.reason, r.idealCycle, r.actualCycle,
   r.totalUnits, r.defectiveUnits, r.goodUnits)

/-- Every column of a row except `Speed_Loss_Percent`. -/
def nonSpeedCols (r : Row) :
    (ℚ × ℚ × String × ℚ × ℚ × ℚ × ℚ × ℚ) × Option ℚ × Option ℚ × Option ℚ × Option ℚ :=
  (baseCols r, r.availability, r.performance, r.quality, r.oee)

/-- C4 (amended): the stages do mutate the shared tables — each adds its
derived columns in place and `calculate_oee_metrics` returns the very table
it mutated (also copied into `oee_results`) — but the pre-existing columns
and the row count are preserved, so downstream readers see the original
simulator data plus the new columns. -/
theorem claim_C4_amended_in_place_column_writes (st : AnalyzerState) :
    (calculate_oee_metrics st).1.raw_data.map baseCols =
      st.raw_data.map baseCols ∧
    (calculate_oee_metrics st).2 = (calculate_oee_metrics st).1.raw_data ∧
    (calculate_oee_metrics st).1.oee_results =
      (calculate_oee_metrics st).1.raw_data ∧
    (speed_loss_analysis st).raw_data = st.raw_data ∧
    (speed_loss_analysis st).oee_results.map nonSpeedCols =
      st.oee_results.map nonSpeedCols := by
  refine ⟨?_, rfl, rfl, rfl, ?_⟩
  · simp only [calculate_oee_metrics, calcOeeFrame, List.map_map]
    apply List.map_congr_left
    intro r _
    simp [Function.comp, calcRow, baseCols]
  · simp only [speed_loss_analysis, List.map_map]
    apply List.map_congr_left
    intro r _
    simp [Function.comp, speedLossRow, nonSpeedCols, baseCols]

/-- C9: the improvement simulation leaves every field of every baseline
record unchanged — line 149 copies the baseline batch and all subsequent
column assignments target only the copy, which ends up holding the rescaled,
recomputed records. -/
theorem claim_C9_improvement_preserves_baseline (baseline : List Row) :
    (simulate_improvement_impact baseline).current = baseline ∧
    (simulate_improvement_impact baseline).improved = baseline.map improveRow :=
  ⟨rfl, rfl⟩

/-! ## Downtime reason vs stored downtime (C6) -/

lemma roundHalfEven_eq_of_lt_half {x : ℚ} {n : ℤ} (h1 : (n : ℚ) ≤ x)
    (h2 : x < (n : ℚ) + 1/2) : roundHalfEven x = n := by
  have hfl : ⌊x⌋ = n := Int.floor_eq_iff.mpr ⟨h1, by linarith⟩
  unfold roundHalfEven
  rw [hfl]
  have hc : x - (n : ℚ) < 1/2 := by linarith
  rw [if_pos hc]

/-- A possible draw vector whose normal downtime output is 0.03 minutes:
positive, so a concrete reason is assigned, but rounding to one decimal
stores `Downtime_Minutes = 0.0`. -/
def drawsTiny : Draws :=
  { downtimeDraw := 3/100, cycleDraw := 2, defectDraw := 1/2, reasonPick := true }

lemma rawDowntime_drawsTiny : rawDowntime Shift.Morning drawsTiny = 3/100 := by
  simp only [rawDowntime, drawsTiny, planned_production_minutes]
  rw [max_eq_right (by norm_num : (0:ℚ) ≤ 3/100),
    min_eq_left (by norm_num : (3/100 : ℚ) ≤ 480 * (1/2))]

/-- C6 is false as stated: for the draw `drawsTiny` the emitted record has
`downtime_minutes = 0` but `downtime_reason = "Minor Stoppage"`, because the
reason is assigned from the raw downtime (0.03) before rounding stores 0.0. -/
theorem claim_C6_counterexample :
    ¬ (((generate_production_record Shift.Morning Machine.Conveyor drawsTiny).reason
          = "None") ↔
       (generate_production_record Shift.Morning Machine.Conveyor drawsTiny).downtime
          = 0) := by
  have hreason :
      (generate_production_record Shift.Morning Machine.Conveyor drawsTiny).reason =
        "Minor Stoppage" := by
    show assignReason (rawDowntime Shift.Morning drawsTiny) drawsTiny.reasonPick = _
    rw [rawDowntime_drawsTiny]
    norm_num [assignReason, drawsTiny]
  have hdt :
      (generate_production_record Shift.Morning Machine.Conveyor drawsTiny).downtime =
        0 := by
    show roundTo 1 (rawDowntime Shift.Morning drawsTiny) = 0
    rw [rawDowntime_drawsTiny]
    unfold roundTo
    rw [roundHalfEven_eq_of_lt_half (n := 0) (by norm_num) (by norm_num)]
    norm_num
  rw [hreason, hdt]
  simp

/-- C6 (amended): `downtime_reason = "None"` holds exactly when the **raw**
downtime is zero; the stored biconditional with `downtime_minutes == 0`
survives rounding whenever the raw downtime is 0 or exceeds 0.05 minutes —
only a raw downtime in `(0, 0.05]` (which rounds down to a stored 0.0)
breaks it. -/
theorem claim_C6_amended_none_iff_zero (s : Shift) (m : Machine) (d : Draws)
    (h : rawDowntime s d = 0 ∨ 1/20 < rawDowntime s d) :
    ((generate_production_record s m d).reason = "None" ↔
     (generate_production_record s m d).downtime = 0) := by
  have hr : (generate_production_record s m d).reason =
      assignReason (rawDowntime s d) d.reasonPick := rfl
  have hdt : (generate_production_record s m d).downtime =
      roundTo 1 (rawDowntime s d) := rfl
  rcases h with h0 | hbig
  · rw [hr, hdt, h0]
    have hz : roundTo 1 (0 : ℚ) = 0 := by
      unfold roundTo
      rw [show (0 : ℚ) * 10 ^ 1 = ((0 : ℤ) : ℚ) by norm_num, roundHalfEven_intCast]
      norm_num
    have hn : assignReason 0 d.reasonPick = "None" := by
      simp [assignReason]
    rw [hz, hn]
    simp
  · rw [hr, hdt]
    have hpos : 0 < rawDowntime s d := lt_trans (by norm_num) hbig
    have hne1 : assignReason (rawDowntime s d) d.reasonPick ≠ "None" := by
      unfold assignReason
      rw [if_pos hpos]
      split_ifs <;> simp
    have hne2 : roundTo 1 (rawDowntime s d) ≠ 0 := by
      have h2 : 1 ≤ roundHalfEven (rawDowntime s d * 10 ^ 1) := by
        apply one_le_roundHalfEven
        have : 1/2 < rawDowntime s d * 10 := by linarith
        calc (1/2 : ℚ) < rawDowntime s d * 10 := this
          _ = rawDowntime s d * 10 ^ 1 := by norm_num
      unfold roundTo
      have h3 : (1 : ℚ) ≤ (roundHalfEven (rawDowntime s d * 10 ^ 1) : ℚ) := by
        exact_mod_cast h2
      have hgt : (0 : ℚ) < (roundHalfEven (rawDowntime s d * 10 ^ 1) : ℚ) / 10 ^ 1 :=
        div_pos (by linarith) (by norm_num)
      exact ne_of_gt hgt
    exact iff_of_false hne1 hne2

/-- A draw vector with a clean 1-minute downtime. -/
def drawsUnit : Draws :=
  { downtimeDraw := 1, cycleDraw := 2, defectDraw := 1/2, reasonPick := true }

lemma rawDowntime_drawsUnit : rawDowntime Shift.Morning drawsUnit = 1 := by
  simp only [rawDowntime, drawsUnit, planned_production_minutes]
  rw [max_eq_right (by norm_num : (0:ℚ) ≤ 1),
    min_eq_left (by norm_num : (1 : ℚ) ≤ 480 * (1/2))]

theorem claim_C6_amended_witness :
    (1/20 < rawDowntime Shift.Morning drawsUnit) ∧
    ((generate_production_record Shift.Morning Machine.Conveyor drawsUnit).reason
        = "None" ↔
     (generate_production_record Shift.Morning Machine.Conveyor drawsUnit).downtime
        = 0) := by
  have h : (1/20 : ℚ) < rawDowntime Shift.Morning drawsUnit := by
    rw [rawDowntime_drawsUnit]; norm_num
  exact ⟨h, claim_C6_amended_none_iff_zero Shift.Morning Machine.Conveyor drawsUnit
    (Or.inr h)⟩

/-! ## C2: all four metrics land in [0, 100] on simulator output -/

lemma ideal_cycle_pos (m : Machine) : 0 < ideal_cycle_time m := by
  cases m <;> norm_num [ideal_cycle_time]

lemma defect_rate_lo_pos (m : Machine) : 0 < defect_rate_lo m := by
  cases m <;> norm_num [defect_rate_lo]

lemma defect_rate_hi_le_100 (m : Machine) : defect_rate_hi m ≤ 100 := by
  cases m <;> norm_num [defect_rate_hi]

lemma clipUpper100_bounds {x : ℚ} (h : 0 ≤ x) :
    ∃ v, clipUpper100 (some x) = some v ∧ 0 ≤ v ∧ v ≤ 100 :=
  ⟨min x 100, rfl, le_min h (by norm_num), min_le_right _ _⟩

/-- C2: for any simulator record whose draws satisfy the uniform-draw
ranges and whose unit count is positive, all four clipped metrics are
defined (no NaN) and lie in `[0, 100]`.  The upper bound is the clip; the
lower bound follows from the downtime cap and `defective ≤ total`. -/
theorem claim_C2_metrics_in_unit_range (s : Shift) (m : Machine) (d : Draws)
    (hd : DrawsValid m d)
    (ht : 0 < (generate_production_record s m d).totalUnits) :
    (∃ a, (calcRow (generate_production_record s m d)).availability = some a ∧
        0 ≤ a ∧ a ≤ 100) ∧
    (∃ p, (calcRow (generate_production_record s m d)).performance = some p ∧
        0 ≤ p ∧ p ≤ 100) ∧
    (∃ q, (calcRow (generate_production_record s m d)).quality = some q ∧
        0 ≤ q ∧ q ≤ 100) ∧
    (∃ o, (calcRow (generate_production_record s m d)).oee = some o ∧
        0 ≤ o ∧ o ≤ 100) := by
  obtain ⟨hc1, hc2, hf1, hf2⟩ := hd
  -- field equations of the generated record
  have e1 : (generate_production_record s m d).planned =
      planned_production_minutes s := rfl
  have e2 : (generate_production_record s m d).downtime =
      roundTo 1 (rawDowntime s d) := rfl
  have e3 : (generate_production_record s m d).idealCycle =
      ideal_cycle_time m := rfl
  have e4 : (generate_production_record s m d).totalUnits =
      (simTotalUnits s d : ℚ) := rfl
  have e5 : (generate_production_record s m d).goodUnits =
      ((simTotalUnits s d - simDefectiveUnits s d : ℤ) : ℚ) := rfl
  -- basic positivity facts
  have hp0 : 0 < planned_production_minutes s := planned_pos s
  have hdt0 : 0 ≤ roundTo 1 (rawDowntime s d) := stored_downtime_nonneg s d
  have hdtle : roundTo 1 (rawDowntime s d) ≤ planned_production_minutes s * (1/2) :=
    stored_downtime_le_half s d
  have hop : 0 < planned_production_minutes s - roundTo 1 (rawDowntime s d) := by
    linarith
  have hpne : planned_production_minutes s ≠ 0 := ne_of_gt hp0
  have htz : (0 : ℚ) < (simTotalUnits s d : ℚ) := by rw [← e4]; exact ht
  have htzne : (simTotalUnits s d : ℚ) ≠ 0 := ne_of_gt htz
  -- defective units: non-negative and at most total units
  have hrate0 : 0 ≤ d.defectDraw := le_trans (le_of_lt (defect_rate_lo_pos m)) hf1
  have hrate100 : d.defectDraw ≤ 100 := le_trans hf2 (defect_rate_hi_le_100 m)
  have hdz0 : 0 ≤ simDefectiveUnits s d := by
    apply Int.floor_nonneg.mpr
    positivity
  have hdzle : simDefectiveUnits s d ≤ simTotalUnits s d := by
    have harg : (simTotalUnits s d : ℚ) * d.defectDraw / 100 ≤
        ((simTotalUnits s d : ℤ) : ℚ) := by
      rw [div_le_iff₀ (by norm_num : (0:ℚ) < 100)]
      nlinarith
    calc simDefectiveUnits s d ≤ ⌊((simTotalUnits s d : ℤ) : ℚ)⌋ :=
          Int.floor_le_floor harg
      _ = simTotalUnits s d := Int.floor_intCast _
  have hgood0 : (0 : ℚ) ≤ ((simTotalUnits s d - simDefectiveUnits s d : ℤ) : ℚ) := by
    have : (0 : ℤ) ≤ simTotalUnits s d - simDefectiveUnits s d := by omega
    exact_mod_cast this
  -- the raw metric values
  have hA : rawAvailability (generate_production_record s m d) =
      some ((planned_production_minutes s - roundTo 1 (rawDowntime s d)) /
        planned_production_minutes s * 100) := by
    simp only [rawAvailability, fdiv, e1, e2, if_neg hpne, Option.map_some']
  have hP : rawPerformance (generate_production_record s m d) =
      some (ideal_cycle_time m * (simTotalUnits s d : ℚ) /
        ((planned_production_minutes s - roundTo 1 (rawDowntime s d)) * 60) * 100) := by
    have hdenne : (planned_production_minutes s - roundTo 1 (rawDowntime s d)) * 60 ≠ 0 := by
      positivity
    simp only [rawPerformance, fdiv, e1, e2, e3, e4, if_neg hdenne, Option.map_some']
  have hQ : rawQuality (generate_production_record s m d) =
      some (((simTotalUnits s d - simDefectiveUnits s d : ℤ) : ℚ) /
        (simTotalUnits s d : ℚ) * 100) := by
    simp only [rawQuality, fdiv, e4, e5, if_neg htzne, Option.map_some']
  -- non-negativity of the raw values
  have hA0 : 0 ≤ (planned_production_minutes s - roundTo 1 (rawDowntime s d)) /
      planned_production_minutes s * 100 := by positivity
  have hP0 : 0 ≤ ideal_cycle_time m * (simTotalUnits s d : ℚ) /
      ((planned_production_minutes s - roundTo 1 (rawDowntime s d)) * 60) * 100 := by
    have hi := ideal_cycle_pos m
    positivity
  have hQ0 : 0 ≤ ((simTotalUnits s d - simDefectiveUnits s d : ℤ) : ℚ) /
      (simTotalUnits s d : ℚ) * 100 := by positivity
  have hO : rawOEE (generate_production_record s m d) =
      some (((planned_production_minutes s - roundTo 1 (rawDowntime s d)) /
          planned_production_minutes s * 100) *
        (ideal_cycle_time m * (simTotalUnits s d : ℚ) /
          ((planned_production_minutes s - roundTo 1 (rawDowntime s d)) * 60) * 100) *
        (((simTotalUnits s d - simDefectiveUnits s d : ℤ) : ℚ) /
          (simTotalUnits s d : ℚ) * 100) / 10000) := by
    rw [rawOEE, hA, hP, hQ]
  have hO0 : 0 ≤ ((planned_production_minutes s - roundTo 1 (rawDowntime s d)) /
          planned_production_minutes s * 100) *
        (ideal_cycle_time m * (simTotalUnits s d : ℚ) /
          ((planned_production_minutes s - roundTo 1 (rawDowntime s d)) * 60) * 100) *
        (((simTotalUnits s d - simDefectiveUnits s d : ℤ) : ℚ) /
          (simTotalUnits s d : ℚ) * 100) / 10000 := by
    have h1 := mul_nonneg (mul_nonneg hA0 hP0) hQ0
    positivity
  -- assemble, using that calcRow clips each raw value
  refine ⟨?_, ?_, ?_, ?_⟩
  · have : (calcRow (generate_production_record s m d)).availability =
        clipUpper100 (rawAvailability (generate_production_record s m d)) := rfl
    rw [this, hA]
    exact clipUpper100_bounds hA0
  · have : (calcRow (generate_production_record s m d)).performance =
        clipUpper100 (rawPerformance (generate_production_record s m d)) := rfl
    rw [this, hP]
    exact clipUpper100_bounds hP0
  · have : (calcRow (generate_production_record s m d)).quality =
        clipUpper100 (rawQuality (generate_production_record s m d)) := rfl
    rw [this, hQ]
    exact clipUpper100_bounds hQ0
  · have : (calcRow (generate_production_record s m d)).oee =
        clipUpper100 (rawOEE (generate_production_record s m d)) := rfl
    rw [this, hO]
    exact clipUpper100_bounds hO0

/-- A concrete valid draw vector for the Filler machine: 30 minutes of
downtime, a 3-second actual cycle, a 1% defect rate. -/
def drawsFiller : Draws :=
  { downtimeDraw := 30, cycleDraw := 3, defectDraw := 1, reasonPick := true }

lemma rawDowntime_drawsFiller : rawDowntime Shift.Morning drawsFiller = 30 := by
  simp only [rawDowntime, drawsFiller, planned_production_minutes]
  rw [max_eq_right (by norm_num : (0:ℚ) ≤ 30),
    min_eq_left (by norm_num : (30 : ℚ) ≤ 480 * (1/2))]

lemma simTotalUnits_drawsFiller :
    simTotalUnits Shift.Morning drawsFiller = 9000 := by
  unfold simTotalUnits
  rw [rawDowntime_drawsFiller]
  rw [show (planned_production_minutes Shift.Morning - 30) * 60 /
      drawsFiller.cycleDraw = ((9000 : ℤ) : ℚ) by
    norm_num [planned_production_minutes, drawsFiller]]
  exact Int.floor_intCast _

theorem claim_C2_witness :
    (∃ a, (calcRow (generate_production_record Shift.Morning Machine.Filler
        drawsFiller)).availability = some a ∧ 0 ≤ a ∧ a ≤ 100) ∧
    (∃ p, (calcRow (generate_production_record Shift.Morning Machine.Filler
        drawsFiller)).performance = some p ∧ 0 ≤ p ∧ p ≤ 100) ∧
    (∃ q, (calcRow (generate_production_record Shift.Morning Machine.Filler
        drawsFiller)).quality = some q ∧ 0 ≤ q ∧ q ≤ 100) ∧
    (∃ o, (calcRow (generate_production_record Shift.Morning Machine.Filler
        drawsFiller)).oee = some o ∧ 0 ≤ o ∧ o ≤ 100) := by
  apply claim_C2_metrics_in_unit_range
  · norm_num [DrawsValid, actual_range_lo, actual_range_hi, defect_rate_lo,
      defect_rate_hi, drawsFiller]
  · show (0 : ℚ) < (simTotalUnits Shift.Morning drawsFiller : ℚ)
    rw [simTotalUnits_drawsFiller]
    norm_num

/-! ## C5: downtime Pareto -/

/-- Invariant carried by the per-reason downtime sums on simulator data:
each one is a multiple of 0.1 minutes and at least 0.1. -/
def TenthPos (x : ℚ) : Prop := (1/10 : ℚ) ≤ x ∧ ∃ k : ℕ, x = (k : ℚ) / 10

lemma TenthPos.add {a b : ℚ} (ha : TenthPos a) (hb : TenthPos b) :
    TenthPos (a + b) := by
  obtain ⟨ha1, ka, hka⟩ := ha
  obtain ⟨hb1, kb, hkb⟩ := hb
  refine ⟨by linarith, ka + kb, ?_⟩
  rw [hka, hkb]
  push_cast
  ring

lemma TenthPos.roundTo_two {x : ℚ} (h : TenthPos x) : roundTo 2 x = x := by
  obtain ⟨-, k, hk⟩ := h
  apply roundTo_of_eq_div (k := (k : ℤ) * 10)
  rw [hk]
  push_cast
  ring

lemma addToGroup_snd {P : ℚ → Prop} (hP : ∀ a b, P a → P b → P (a + b))
    {k : String} {v : ℚ} (hv : P v) :
    ∀ acc, (∀ p ∈ acc, P p.2) → ∀ p ∈ addToGroup acc k v, P p.2 := by
  intro acc
  induction acc with
  | nil =>
    intro _ p hp
    simp only [addToGroup, List.mem_singleton] at hp
    subst hp
    exact hv
  | cons hd tl ih =>
    obtain ⟨k', v'⟩ := hd
    intro hacc p hp
    simp only [addToGroup] at hp
    split_ifs at hp with hk
    · rcases List.mem_cons.mp hp with rfl | hmem
      · exact hP v' v (hacc (k', v') (List.mem_cons_self _ _)) hv
      · exact hacc p (List.mem_cons_of_mem _ hmem)
    · rcases List.mem_cons.mp hp with rfl | hmem
      · exact hacc _ (List.mem_cons_self _ _)
      · exact ih (fun q hq => hacc q (List.mem_cons_of_mem _ hq)) p hmem

lemma groupSumDowntime_snd {P : ℚ → Prop} (hP : ∀ a b, P a → P b → P (a + b)) :
    ∀ (rows : List Row) (acc : List (String × ℚ)),
      (∀ p ∈ acc, P p.2) → (∀ r ∈ rows, P r.downtime) →
      ∀ p ∈ rows.foldl (fun a r => addToGroup a r.reason r.downtime) acc, P p.2 := by
  intro rows
  induction rows with
  | nil => intro acc hacc _ p hp; exact hacc p hp
  | cons r rs ih =>
    intro acc hacc hrows p hp
    simp only [List.foldl_cons] at hp
    exact ih (addToGroup acc r.reason r.downtime)
      (addToGroup_snd hP (hrows r (List.mem_cons_self _ _)) acc hacc)
      (fun q hq => hrows q (List.mem_cons_of_mem _ hq)) p hp

lemma addToGroup_ne_nil (acc : List (String × ℚ)) (k : String) (v : ℚ) :
    addToGroup acc k v ≠ [] := by
  cases acc with
  | nil => simp [addToGroup]
  | cons hd tl =>
    obtain ⟨k', v'⟩ := hd
    simp only [addToGroup]
    split_ifs <;> simp

lemma groupFold_ne_nil :
    ∀ (rows : List Row) (acc : List (String × ℚ)), acc ≠ [] →
      rows.foldl (fun a r => addToGroup a r.reason r.downtime) acc ≠ [] := by
  intro rows
  induction rows with
  | nil => intro acc h; simpa using h
  | cons r rs ih =>
    intro acc _
    simp only [List.foldl_cons]
    exact ih _ (addToGroup_ne_nil acc r.reason r.downtime)

lemma groupSumDowntime_ne_nil {rows : List Row} (h : rows ≠ []) :
    groupSumDowntime rows ≠ [] := by
  cases rows with
  | nil => contradiction
  | cons r rs =>
    unfold groupSumDowntime
    simp only [List.foldl_cons]
    exact groupFold_ne_nil rs _ (addToGroup_ne_nil [] r.reason r.downtime)

lemma runningTotals_nonneg {l : List ℚ} (h : ∀ x ∈ l, 0 ≤ x) :
    ∀ y ∈ runningTotals l, 0 ≤ y := by
  induction l with
  | nil => simp [runningTotals]
  | cons x xs ih =>
    intro y hy
    simp only [runningTotals, List.mem_cons, List.mem_map] at hy
    rcases hy with rfl | ⟨z, hz, rfl⟩
    · exact h y (List.mem_cons_self _ _)
    · have h1 := ih (fun a ha => h a (List.mem_cons_of_mem _ ha)) z hz
      have h2 := h x (List.mem_cons_self _ _)
      linarith

lemma runningTotals_chain {l : List ℚ} (h : ∀ x ∈ l, 0 ≤ x) :
    List.Chain' (· ≤ ·) (runningTotals l) := by
  induction l with
  | nil => simp [runningTotals]
  | cons x xs ih =>
    simp only [runningTotals]
    have hch : List.Chain' (· ≤ ·) ((runningTotals xs).map (fun s => x + s)) := by
      rw [List.chain'_map]
      exact (ih (fun a ha => h a (List.mem_cons_of_mem _ ha))).imp
        (fun a b hab => by simpa using hab)
    apply hch.cons'
    intro y hy
    rw [List.head?_map] at hy
    cases hrt : (runningTotals xs).head? with
    | none => rw [hrt] at hy; simp at hy
    | some a =>
      rw [hrt] at hy
      simp only [Option.map_some', Option.mem_def, Option.some.injEq] at hy
      subst hy
      have ha : a ∈ runningTotals xs := by
        cases hxs : runningTotals xs with
        | nil => rw [hxs] at hrt; simp at hrt
        | cons b bs =>
          rw [hxs] at hrt
          simp only [List.head?_cons, Option.some.injEq] at hrt
          subst hrt
          exact List.mem_cons_self _ _
      have := runningTotals_nonneg (fun a ha => h a (List.mem_cons_of_mem _ ha)) a ha
      linarith

lemma runningTotals_ne_nil {l : List ℚ} (h : l ≠ []) : runningTotals l ≠ [] := by
  cases l with
  | nil => contradiction
  | cons x xs => simp [runningTotals]

lemma runningTotals_getLast {l : List ℚ} (h : l ≠ []) :
    (runningTotals l).getLast? = some l.sum := by
  induction l with
  | nil => contradiction
  | cons x xs ih =>
    by_cases hxs : xs = []
    · subst hxs
      simp [runningTotals]
    · simp only [runningTotals]
      obtain ⟨a, as, hrt⟩ : ∃ a as, (runningTotals xs).map (fun s => x + s) = a :: as := by
        cases hxs2 : (runningTotals xs).map (fun s => x + s) with
        | nil =>
          exfalso
          have := runningTotals_ne_nil hxs
          simp only [List.map_eq_nil_iff] at hxs2
          exact this hxs2
        | cons a as => exact ⟨a, as, rfl⟩
      rw [hrt, List.getLast?_cons_cons, ← hrt, List.getLast?_map, ih hxs]
      simp [List.sum_cons]

/-- §8 Pareto scenario, reason "Breakdown" with 100 downtime minutes. -/
def rowBreakdownP : Row :=
  { planned := 480, downtime := 100, reason := "Breakdown", idealCycle := 45,
    actualCycle := 50, totalUnits := 456, defectiveUnits := 4, goodUnits := 452 }

/-- §8 Pareto scenario, reason "Cleaning" with 50 downtime minutes. -/
def rowCleaningP : Row :=
  { planned := 480, downtime := 50, reason := "Cleaning", idealCycle := 45,
    actualCycle := 50, totalUnits := 516, defectiveUnits := 5, goodUnits := 511 }

/-- §8 Pareto scenario, reason "Power Failure" with 50 downtime minutes. -/
def rowPowerP : Row :=
  { planned := 480, downtime := 50, reason := "Power Failure", idealCycle := 45,
    actualCycle := 50, totalUnits := 516, defectiveUnits := 5, goodUnits := 511 }

/-- The three-reason Pareto scenario batch with totals 100/50/50. -/
def paretoScenario : List Row := [rowBreakdownP, rowCleaningP, rowPowerP]

lemma pareto_scenario_filter :
    paretoScenario.filter (fun r => decide (0 < r.downtime)) = paretoScenario := by
  norm_num [paretoScenario, rowBreakdownP, rowCleaningP, rowPowerP,
    List.filter_cons, decide_eq_true_eq]

lemma pareto_scenario_totals :
    downtime_pareto_totals paretoScenario =
      [("Breakdown", 100), ("Cleaning", 50), ("Power Failure", 50)] := by
  have h100 : roundTo 2 (100 : ℚ) = 100 := roundTo_of_eq_div (k := 10000) (by norm_num)
  have h50 : roundTo 2 (50 : ℚ) = 50 := roundTo_of_eq_div (k := 5000) (by norm_num)
  unfold downtime_pareto_totals
  rw [pareto_scenario_filter]
  norm_num [paretoScenario, rowBreakdownP, rowCleaningP, rowPowerP,
    groupSumDowntime, addToGroup, List.insertionSort, List.orderedInsert,
    byTotalDesc, h100, h50]

lemma pareto_scenario_cum : cumulative_pct paretoScenario = [50, 75, 100] := by
  have h1 : roundTo 1 (50 : ℚ) = 50 := roundTo_of_eq_div (k := 500) (by norm_num)
  have h2 : roundTo 1 (75 : ℚ) = 75 := roundTo_of_eq_div (k := 750) (by norm_num)
  have h3 : roundTo 1 (100 : ℚ) = 100 := roundTo_of_eq_div (k := 1000) (by norm_num)
  simp only [cumulative_pct, pareto_scenario_totals]
  norm_num [runningTotals, h1, h2, h3]

/-- C5: for any batch of simulator-style records (downtimes are non-negative
multiples of 0.1 minutes, as rounding to one decimal guarantees) with at
least one positive-downtime record, the Pareto rows are sorted descending by
total downtime, the cumulative-percentage column is non-decreasing and ends
at exactly 100; and the 100/50/50 three-reason scenario yields sorted totals
[100, 50, 50] with cumulative percentages [50.0, 75.0, 100.0]. -/
theorem claim_C5_downtime_pareto (rows : List Row)
    (hmul : ∀ r ∈ rows, ∃ k : ℕ, r.downtime = (k : ℚ) / 10)
    (hne : rows.filter (fun r => decide (0 < r.downtime)) ≠ []) :
    List.Sorted byTotalDesc (downtime_pareto_totals rows) ∧
    List.Chain' (· ≤ ·) (cumulative_pct rows) ∧
    (cumulative_pct rows).getLast? = some 100 ∧
    downtime_pareto_totals paretoScenario =
      [("Breakdown", 100), ("Cleaning", 50), ("Power Failure", 50)] ∧
    cumulative_pct paretoScenario = [50, 75, 100] := by
  have hfil : ∀ r ∈ rows.filter (fun r => decide (0 < r.downtime)),
      TenthPos r.downtime := by
    intro r hr
    obtain ⟨hmem, hpos⟩ := List.mem_filter.mp hr
    have hp := of_decide_eq_true hpos
    obtain ⟨k, hk⟩ := hmul r hmem
    rcases Nat.eq_zero_or_pos k with h0 | h1
    · rw [h0] at hk
      norm_num [hk] at hp
    · refine ⟨?_, k, hk⟩
      rw [hk]
      have : (1 : ℚ) ≤ (k : ℚ) := by exact_mod_cast h1
      linarith
  have hgrp : ∀ p ∈ groupSumDowntime
      (rows.filter (fun r => decide (0 < r.downtime))), TenthPos p.2 := by
    intro p hp
    exact groupSumDowntime_snd (fun a b ha hb => ha.add hb) _ []
      (by simp) hfil p hp
  have hmap : ∀ p ∈ (groupSumDowntime
      (rows.filter (fun r => decide (0 < r.downtime)))).map
        (fun p => (p.1, roundTo 2 p.2)), TenthPos p.2 := by
    intro p hp
    obtain ⟨q, hq, rfl⟩ := List.mem_map.mp hp
    have hqP := hgrp q hq
    show TenthPos (roundTo 2 q.2)
    rw [hqP.roundTo_two]
    exact hqP
  have hsortmem : ∀ p ∈ downtime_pareto_totals rows, TenthPos p.2 := by
    intro p hp
    unfold downtime_pareto_totals at hp
    exact hmap p ((List.perm_insertionSort byTotalDesc _).mem_iff.mp hp)
  have htotmem : ∀ x ∈ (downtime_pareto_totals rows).map Prod.snd,
      TenthPos x := by
    intro x hx
    obtain ⟨p, hp, rfl⟩ := List.mem_map.mp hx
    exact hsortmem p hp
  have hne2 : downtime_pareto_totals rows ≠ [] := by
    unfold downtime_pareto_totals
    intro h
    have hlen := congrArg List.length h
    rw [List.length_insertionSort, List.length_map] at hlen
    simp only [List.length_nil, List.length_eq_zero] at hlen
    exact groupSumDowntime_ne_nil hne hlen
  have htne : (downtime_pareto_totals rows).map Prod.snd ≠ [] := by
    simpa using hne2
  have hsum : (1 : ℚ)/10 ≤ ((downtime_pareto_totals rows).map Prod.snd).sum := by
    cases htot : (downtime_pareto_totals rows).map Prod.snd with
    | nil => exact absurd htot htne
    | cons t ts =>
      have ht1 : TenthPos t := htotmem t (by rw [htot]; exact List.mem_cons_self _ _)
      have hts : 0 ≤ ts.sum := List.sum_nonneg (fun a ha => by
        have := htotmem a (by rw [htot]; exact List.mem_cons_of_mem _ ha)
        linarith [this.1])
      rw [List.sum_cons]
      linarith [ht1.1]
  have hg0 : 0 < ((downtime_pareto_totals rows).map Prod.snd).sum :=
    lt_of_lt_of_le (by norm_num) hsum
  have h0mem : ∀ x ∈ (downtime_pareto_totals rows).map Prod.snd, 0 ≤ x :=
    fun x hx => le_trans (by norm_num) (htotmem x hx).1
  refine ⟨?_, ?_, ?_, pareto_scenario_totals, pareto_scenario_cum⟩
  · unfold downtime_pareto_totals
    exact List.sorted_insertionSort byTotalDesc _
  · simp only [cumulative_pct]
    rw [List.chain'_map]
    apply (runningTotals_chain h0mem).imp
    intro a b hab
    apply roundTo_mono
    have h1 : a / ((downtime_pareto_totals rows).map Prod.snd).sum ≤
        b / ((downtime_pareto_totals rows).map Prod.snd).sum :=
      (div_le_div_iff_of_pos_right hg0).mpr hab
    exact mul_le_mul_of_nonneg_right h1 (by norm_num)
  · simp only [cumulative_pct]
    rw [List.getLast?_map, runningTotals_getLast htne]
    simp only [Option.map_some', Option.some.injEq]
    rw [div_self (ne_of_gt hg0), one_mul]
    exact roundTo_of_eq_div (k := 1000) (by norm_num)

theorem claim_C5_witness :
    (∀ r ∈ paretoScenario, ∃ k : ℕ, r.downtime = (k : ℚ) / 10) ∧
    (paretoScenario.filter (fun r => decide (0 < r.downtime)) ≠ []) ∧
    (List.Sorted byTotalDesc (downtime_pareto_totals paretoScenario) ∧
     List.Chain' (· ≤ ·) (cumulative_pct paretoScenario) ∧
     (cumulative_pct paretoScenario).getLast? = some 100 ∧
     downtime_pareto_totals paretoScenario =
       [("Breakdown", 100), ("Cleaning", 50), ("Power Failure", 50)] ∧
     cumulative_pct paretoScenario = [50, 75, 100]) := by
  have h1 : ∀ r ∈ paretoScenario, ∃ k : ℕ, r.downtime = (k : ℚ) / 10 := by
    intro r hr
    simp only [paretoScenario, List.mem_cons, List.not_mem_nil, or_false] at hr
    rcases hr with rfl | rfl | rfl
    · exact ⟨1000, by norm_num [rowBreakdownP]⟩
    · exact ⟨500, by norm_num [rowCleaningP]⟩
    · exact ⟨500, by norm_num [rowPowerP]⟩
  have h2 : paretoScenario.filter (fun r => decide (0 < r.downtime)) ≠ [] := by
    rw [pareto_scenario_filter]
    simp [paretoScenario]
  exact ⟨h1, h2, claim_C5_downtime_pareto paretoScenario h1 h2⟩
